import Mathlib

/-!
Verification of the dranet node-local driver: a shallow embedding of the
cloud-provider attribute derivation (pkg/cloudprovider/gce), the
configuration defaulting and validation (pkg/apis), and the namespace-scoped
network configuration engine (pkg/driver), together with theorems settling
the specification claims.

Go strings are modelled as Lean `String`; character-level operations work on
`String.data : List Char`.  Go machine integers are modelled as `Nat`/`Int`
with explicit reduction modulo `2 ^ 32` where overflow matters.
-/

namespace DraNet

/-! ### Character/string helpers (models of Go `strings` operations) -/

/-- Model of Go `strings.Split(s, sep)` for a one-character separator:
the list of (possibly empty) segments between occurrences of `sep`.
As in Go, the empty string yields `[[]]`. -/
def splitChar (sep : Char) : List Char → List (List Char)
  | [] => [[]]
  | c :: rest =>
    let tail := splitChar sep rest
    if c = sep then [] :: tail
    else
      match tail with
      | [] => [[c]]
      | seg :: segs => (c :: seg) :: segs

/-- Model of Go `strings.Join(parts, sep)` for a one-character separator. -/
def joinChar (sep : Char) : List (List Char) → List Char
  | [] => []
  | [seg] => seg
  | seg :: rest => seg ++ sep :: joinChar sep rest

/-- Model of Go `strings.TrimPrefix(s, "/")`: removes one leading slash. -/
def trimLeadingSlash : List Char → List Char
  | '/' :: rest => rest
  | l => l

/-- Model of Go `strings.SplitN(s, "/", 3)`: at most three parts, the third
keeping any remaining separators. -/
def splitN3 (l : List Char) : List (List Char) :=
  let segs := splitChar '/' l
  if segs.length ≤ 3 then segs else segs.take 2 ++ [joinChar '/' (segs.drop 2)]

/-- Drops `p` from the front of `l`, or fails when `p` is not a prefix. -/
def dropPfx : List Char → List Char → Option (List Char)
  | [], rest => some rest
  | _ :: _, [] => none
  | p :: ps, c :: cs => if p = c then dropPfx ps cs else none

/-- ASCII whitespace, as skipped by Go's `fmt` scanner before a verb. -/
def isGoSpace (c : Char) : Bool :=
  c == ' ' || c == '\t' || c == '\n' || c == '\r'

/-- Decimal value of a digit run. -/
def digitsVal (l : List Char) : Nat :=
  l.foldl (fun a c => a * 10 + (c.toNat - 48)) 0

/-- First position split at a separator character: model of indexing the
first occurrence of `sep` (Go `strings.IndexByte`). -/
def splitFirst (sep : Char) : List Char → Option (List Char × List Char)
  | [] => none
  | c :: rest =>
    if c = sep then some ([], rest)
    else (splitFirst sep rest).map (fun p => (c :: p.1, p.2))

/-! ### Models of Go `net` address parsing

`parseIPv4`/`parseIPv6`/`goParseIP` model `net.ParseIP`, `parseCIDR` models
`net.ParseCIDR`, and `parseMAC` models `net.ParseMAC`.  IP addresses are byte
lists; as in Go, `ParseIP` yields the 16-byte form (IPv4 mapped into IPv6),
while `ParseCIDR` yields a 4-byte network address for IPv4. -/

/-- Hexadecimal value of a character, if it is a hex digit. -/
def hexVal (c : Char) : Option Nat :=
  let n := c.toNat
  if 48 ≤ n ∧ n ≤ 57 then some (n - 48)
  else if 97 ≤ n ∧ n ≤ 102 then some (n - 87)
  else if 65 ≤ n ∧ n ≤ 70 then some (n - 55)
  else none

/-- One dotted-quad field: 1–3 decimal digits, no leading zero, value ≤ 255
(Go rejects leading zeros in octets since 1.17). -/
def v4Field (g : List Char) : Option Nat :=
  if g.isEmpty then none
  else if ¬ g.all Char.isDigit then none
  else if 3 < g.length then none
  else if 1 < g.length ∧ g.head? = some '0' then none
  else if digitsVal g ≤ 255 then some (digitsVal g) else none

/-- Dotted-quad IPv4 parsing: exactly four valid fields; 4 bytes. -/
def parseIPv4 (l : List Char) : Option (List Nat) :=
  match (splitChar '.' l).mapM v4Field with
  | some fs => if fs.length = 4 then some fs else none
  | none => none

/-- One IPv6 group: 1–4 hex digits. -/
def hexGroupVal (g : List Char) : Option Nat :=
  if g.isEmpty ∨ 4 < g.length then none
  else (g.mapM hexVal).map (fun ds => ds.foldl (fun a d => a * 16 + d) 0)

/-- The final group of an IPv6 address may be an embedded dotted quad
(contributing two 16-bit groups) when `allowV4` is set. -/
def lastGroupVals (allowV4 : Bool) (g : List Char) : Option (List Nat) :=
  if allowV4 ∧ g.contains '.' then
    match parseIPv4 g with
    | some [a, b, c, d] => some [a * 256 + b, c * 256 + d]
    | _ => none
  else (hexGroupVal g).map (fun v => [v])

/-- Colon-separated 16-bit groups; only the last may be an embedded IPv4. -/
def groupsOfNE (allowV4 : Bool) : List (List Char) → Option (List Nat)
  | [] => some []
  | [g] => lastGroupVals allowV4 g
  | g :: rest =>
    match hexGroupVal g, groupsOfNE allowV4 rest with
    | some v, some vs => some (v :: vs)
    | _, _ => none

/-- Groups of a (possibly empty) side of a `::`. -/
def groupsOf (allowV4 : Bool) (l : List Char) : Option (List Nat) :=
  if l.isEmpty then some [] else groupsOfNE allowV4 (splitChar ':' l)

/-- Splits at the first `::`, if any. -/
def findDoubleColon : List Char → Option (List Char × List Char)
  | ':' :: ':' :: rest => some ([], rest)
  | c :: rest => (findDoubleColon rest).map (fun p => (c :: p.1, p.2))
  | [] => none

/-- 16-bit groups to bytes. -/
def groupsToBytes (gs : List Nat) : List Nat :=
  gs.foldr (fun v acc => v / 256 :: v % 256 :: acc) []

/-- IPv6 textual parsing (zones rejected, as by `net.ParseIP`); 16 bytes. -/
def parseIPv6 (l : List Char) : Option (List Nat) :=
  if l.contains '%' then none
  else
    match findDoubleColon l with
    | some (before, after) =>
      if (findDoubleColon after).isSome then none
      else
        match groupsOf false before, groupsOf true after with
        | some a, some b =>
          if a.length + b.length ≤ 7 then
            some (groupsToBytes (a ++ List.replicate (8 - a.length - b.length) 0 ++ b))
          else none
        | _, _ => none
    | none =>
      match groupsOf true l with
      | some a => if a.length = 8 then some (groupsToBytes a) else none
      | none => none

/-- IPv4 bytes in the 16-byte IPv4-in-IPv6 form returned by `net.ParseIP`. -/
def v4InV6 (bs : List Nat) : List Nat :=
  [0, 0, 0, 0, 0, 0, 0, 0, 0, 0, 255, 255] ++ bs

/-- Model of `net.ParseIP`: dispatch on the first `.` or `:`, as Go does. -/
def goParseIP (s : String) : Option (List Nat) :=
  match s.data.find? (fun c => c == '.' || c == ':') with
  | some '.' => (parseIPv4 s.data).map v4InV6
  | some ':' => parseIPv6 s.data
  | _ => none

/-- A parsed CIDR: the masked network address bytes and the prefix length. -/
structure CIDR where
  addr : List Nat
  bits : Nat
deriving DecidableEq, Repr

/-- Masks address bytes to the first `n` bits (Go `IP.Mask`). -/
def maskBytes : Nat → List Nat → List Nat
  | _, [] => []
  | n, b :: bs =>
    (if 8 ≤ n then b else b / 2 ^ (8 - n) * 2 ^ (8 - n)) :: maskBytes (n - 8) bs

/-- Model of `net.ParseCIDR`: split at the first `/`, parse the address part
as IPv4 (4 bytes) or IPv6 (16 bytes), and require an all-digit prefix length
bounded by the address width; the resulting address is masked. -/
def parseCIDR (s : String) : Option CIDR :=
  match splitFirst '/' s.data with
  | none => none
  | some (addrPart, maskPart) =>
    let ipAndBits : Option (List Nat × Nat) :=
      match addrPart.find? (fun c => c == '.' || c == ':') with
      | some '.' => (parseIPv4 addrPart).map (fun ip => (ip, 32))
      | some ':' => (parseIPv6 addrPart).map (fun ip => (ip, 128))
      | _ => none
    match ipAndBits with
    | none => none
    | some (ip, bits) =>
      if maskPart.isEmpty ∨ ¬ maskPart.all Char.isDigit then none
      else if digitsVal maskPart ≤ bits then
        some ⟨maskBytes (digitsVal maskPart) ip, digitsVal maskPart⟩
      else none

/-- Two hex digits to a byte. -/
def hexByte (g : List Char) : Option Nat :=
  match g with
  | [a, b] =>
    match hexVal a, hexVal b with
    | some x, some y => some (x * 16 + y)
    | _, _ => none
  | _ => none

/-- Four hex digits to two bytes. -/
def hexWord (g : List Char) : Option (List Nat) :=
  match g with
  | [a, b, c, d] =>
    match hexByte [a, b], hexByte [c, d] with
    | some x, some y => some [x, y]
    | _, _ => none
  | _ => none

/-- Model of `net.ParseMAC`: `:`/`-`-separated two-hex-digit groups (6, 8 or
20 of them) or `.`-separated four-hex-digit groups (3, 4 or 10 of them). -/
def parseMAC (s : String) : Option (List Nat) :=
  let l := s.data
  match l.find? (fun c => c == ':' || c == '-' || c == '.') with
  | none => none
  | some sep =>
    let gs := splitChar sep l
    if sep = '.' then
      if gs.length = 3 ∨ gs.length = 4 ∨ gs.length = 10 then
        (gs.mapM hexWord).map List.flatten
      else none
    else
      if gs.length = 6 ∨ gs.length = 8 ∨ gs.length = 20 then
        gs.mapM hexByte
      else none

/-! ### Cloud provider abstraction and the GCE instance
(pkg/cloudprovider/cloud.go, pkg/cloudprovider/gce/gce.go) -/

/-- `cloudprovider.DeviceIdentifiers`. -/
structure DeviceIdentifiers where
  mac : String
  pciAddress : String
  name : String
deriving DecidableEq, Repr

/-- A `resourceapi.DeviceAttribute` scalar: a string or an integer. -/
inductive DeviceAttribute where
  | str (s : String)
  | int (i : Int)
deriving DecidableEq, Repr

/-- The qualified attribute keys published by the GCE provider; each
constructor stands for the Go constant `gce.dra.net/<name>`. -/
inductive AttrKey where
  | block
  | subBlock
  | host
  | networkName
  | networkProjectNumber
  | ipAliases
  | machineType
deriving DecidableEq, Repr

/-- `gce.gceNetworkInterface` (the fields `GetDeviceAttributes` reads). -/
structure GceNetworkInterface where
  ipv4 : String
  mac : String
  mtu : Int
  network : String
  ipAliases : List String
deriving DecidableEq, Repr

/-- `gce.GCEInstance`. -/
structure GCEInstance where
  name : String
  type : String
  acceleratorProtocol : String
  interfaces : List GceNetworkInterface
  topology : String
deriving DecidableEq, Repr

/-- Model of `fmt.Sscanf(network, "projects/%d/networks/%s", ...)`:
the literal `projects/` must match exactly, `%d` skips leading spaces and
reads an optionally signed digit run, the literal `/networks/` must match
exactly, and `%s` skips leading spaces and reads a non-empty maximal
whitespace-free run (trailing input is ignored, as by `Sscanf`). -/
def parseGCENetwork (s : String) : Option (Int × String) :=
  match dropPfx "projects/".data s.data with
  | none => none
  | some r1 =>
    let r1 := r1.dropWhile isGoSpace
    let signAndRest : Int × List Char :=
      match r1 with
      | '-' :: t => (-1, t)
      | '+' :: t => (1, t)
      | t => (1, t)
    let ds := signAndRest.2.takeWhile Char.isDigit
    if ds.isEmpty then none
    else
      match dropPfx "/networks/".data (signAndRest.2.drop ds.length) with
      | none => none
      | some r2 =>
        let r2 := r2.dropWhile isGoSpace
        let nm := r2.takeWhile (fun c => ¬ isGoSpace c)
        if nm.isEmpty then none
        else some (signAndRest.1 * (digitsVal ds : Int), String.mk nm)

/-- The node-level attributes accumulated by `GCEInstance.GetDeviceAttributes`
before any per-device matching: always the machine type, plus the three
topology attributes when `SplitN(TrimPrefix(topology, "/"), "/", 3)` yields
exactly three parts. -/
def nodeLevelAttrs (g : GCEInstance) : List (AttrKey × DeviceAttribute) :=
  let base := [(AttrKey.machineType, DeviceAttribute.str g.type)]
  if g.topology = "" then base
  else
    match splitN3 (trimLeadingSlash g.topology.data) with
    | [b, sb, h] =>
      base ++ [(AttrKey.block, DeviceAttribute.str (String.mk b)),
               (AttrKey.subBlock, DeviceAttribute.str (String.mk sb)),
               (AttrKey.host, DeviceAttribute.str (String.mk h))]
    | _ => base

/-- `GCEInstance.GetDeviceAttributes`.  The Go function returns a map or the
nil map; `none` models the nil map (`return nil` on a network-parse error),
and the attribute map is modelled as an ordered association list with
distinct keys. -/
def GetDeviceAttributes (g : GCEInstance) (id : DeviceIdentifiers) :
    Option (List (AttrKey × DeviceAttribute)) :=
  let attributes := nodeLevelAttrs g
  if id.mac = "" then some attributes
  else
    match g.interfaces.find? (fun i => decide (i.mac = id.mac)) with
    | none => some attributes
    | some itf =>
      let attributes :=
        if 0 < itf.ipAliases.length then
          attributes ++
            [(AttrKey.ipAliases,
              DeviceAttribute.str (String.mk (joinChar ',' (itf.ipAliases.map String.data))))]
        else attributes
      match parseGCENetwork itf.network with
      | none => none
      | some pn =>
        some (attributes ++
          [(AttrKey.networkName, DeviceAttribute.str pn.2),
           (AttrKey.networkProjectNumber, DeviceAttribute.int pn.1)])

/-! ### Configuration types, defaulting and validation (pkg/apis) -/

/-- UTF-8 bytes of a string, as hashed by Go's `h.Write([]byte(name))`. -/
def utf8Bytes (s : String) : List Nat :=
  (s.data.map (fun c => (String.utf8EncodeChar c).map UInt8.toNat)).flatten

/-- One step of FNV-1a: xor in the byte, multiply by the 32-bit FNV prime. -/
def fnv1a32Step (h b : Nat) : Nat :=
  (Nat.xor h (b % 256)) * 16777619 % 4294967296

/-- FNV-1a 32-bit hash (`hash/fnv.New32a`) of a byte sequence. -/
def fnv1a32 (bytes : List Nat) : Nat :=
  bytes.foldl fnv1a32Step 2166136261

/-- `apis.VRFConfig`: a VRF name and an optional routing-table id. -/
structure VRFConfig where
  name : String
  table : Option Int
deriving DecidableEq, Repr

/-- `VRFConfig.Default` (pkg/apis/defaults.go), parameterised by the package
constant `VRFTableOffset`, whose defining file is not among the shown
sources; the spec only calls it "a fixed offset reserved for VRF tables", so
it is kept abstract as an argument.  When no table is set and the name is
non-empty, the table becomes `fnv1a32(name) % 1000 + offset`. -/
def VRFConfig.Default (offset : Nat) (c : VRFConfig) : VRFConfig :=
  if c.table = none ∧ c.name ≠ "" then
    { c with table := some ((fnv1a32 (utf8Bytes c.name) % 1000 + offset : Nat) : Int) }
  else c

/-- `apis.RouteConfig` (scope is the kernel route scope: 0 = Universe,
253 = Link). -/
structure RouteConfig where
  destination : String
  gateway : String
  source : String
  scope : Nat
  table : Int
deriving DecidableEq, Repr

/-- `apis.RuleConfig`. -/
structure RuleConfig where
  priority : Int
  table : Int
  source : String
  destination : String
deriving DecidableEq, Repr

/-- `apis.NeighborConfig`. -/
structure NeighborConfig where
  destination : String
  hardwareAddr : String
deriving DecidableEq, Repr

/-- The validation failures `apis.validateRoutes` can report for the route at
index `i`; each constructor stands for one `fmt.Errorf` in the source. -/
inductive RouteValErr where
  | destEmpty (i : Nat)
  | destInvalid (i : Nat)
  | scopeInvalid (i : Nat)
  | gatewayInvalid (i : Nat)
  | gatewayRequired (i : Nat)
  | sourceInvalid (i : Nat)
  | tableNegative (i : Nat)
deriving DecidableEq, Repr

/-- The checks `validateRoutes` runs on a single entry, in source order:
a destination must be non-empty and parse as a CIDR or a bare IP; the scope
must be Universe (0) or Link (253); a gateway must parse when present and is
required for non-Link scopes; a source must parse when present; the table
must be non-negative. -/
def validateRoute (i : Nat) (route : RouteConfig) : List RouteValErr :=
  (if route.destination = "" then [RouteValErr.destEmpty i]
   else if parseCIDR route.destination = none ∧ goParseIP route.destination = none then
     [RouteValErr.destInvalid i]
   else [])
  ++ (if route.scope ≠ 0 ∧ route.scope ≠ 253 then [RouteValErr.scopeInvalid i] else [])
  ++ (if route.gateway ≠ "" then
        (if goParseIP route.gateway = none then [RouteValErr.gatewayInvalid i] else [])
      else if route.scope ≠ 253 then [RouteValErr.gatewayRequired i] else [])
  ++ (if route.source ≠ "" ∧ goParseIP route.source = none then
        [RouteValErr.sourceInvalid i] else [])
  ++ (if route.table < 0 then [RouteValErr.tableNegative i] else [])

/-- `apis.validateRoutes`: per-entry checks, all entries examined. -/
def validateRoutes : Nat → List RouteConfig → List RouteValErr
  | _, [] => []
  | i, r :: rest => validateRoute i r ++ validateRoutes (i + 1) rest

/-! ### The network configuration engine (pkg/driver)

The engine's netlink calls are modelled by an oracle giving the kernel's
answer to each add request: success, `EEXIST`, or some other failure.  The
namespace/handle/link acquisition prologue shared by the apply functions is
abstracted into the `linkIndex` argument (the resolved device's index); the
claims under verification are about the per-entry loops that follow it. -/

/-- The kernel's answer to a netlink add request. -/
inductive KRes where
  | ok
  | eexist
  | fail
deriving DecidableEq, Repr

/-- The `netlink.Route` fields populated by `applyRoutingConfig`. -/
structure NLRoute where
  linkIndex : Nat
  scope : Nat
  table : Int
  dst : CIDR
  gw : Option (List Nat)
  src : Option (List Nat)
deriving DecidableEq, Repr

/-- An error collected by `applyRoutingConfig`: a destination parse failure
or a kernel rejection other than `EEXIST`. -/
inductive RouteErr where
  | parse (destination : String)
  | add (r : NLRoute)
deriving DecidableEq, Repr

/-- The route built for one entry: scope and table copied from the entry
except that an active VRF table (`0 < vrfTable`) overrides the table;
gateway and source parsed with `net.ParseIP` (a failed parse leaves them
nil, uncollected). -/
def buildNLRoute (linkIndex : Nat) (vrfTable : Int) (rc : RouteConfig) (dst : CIDR) : NLRoute :=
  { linkIndex := linkIndex
    scope := rc.scope
    table := if 0 < vrfTable then vrfTable else rc.table
    dst := dst
    gw := goParseIP rc.gateway
    src := if rc.source = "" then none else goParseIP rc.source }

/-- The per-entry loop of `applyRoutingConfig`: for each entry in order,
a destination that fails `net.ParseCIDR` contributes a parse error and is
skipped; otherwise the built route is attempted, with `EEXIST` treated as
success and any other failure collected.  Returns the attempted routes and
the collected errors, both in loop order. -/
def routeLoop (linkIndex : Nat) (k : NLRoute → KRes) (vrfTable : Int) :
    List RouteConfig → List NLRoute × List RouteErr
  | [] => ([], [])
  | rc :: rest =>
    let rem := routeLoop linkIndex k vrfTable rest
    match parseCIDR rc.destination with
    | none => (rem.1, RouteErr.parse rc.destination :: rem.2)
    | some dst =>
      let r := buildNLRoute linkIndex vrfTable rc dst
      match k r with
      | KRes.fail => (r :: rem.1, RouteErr.add r :: rem.2)
      | _ => (r :: rem.1, rem.2)

/-- The order `slices.SortFunc` establishes: descending scope value, so that
Link-scope (253) entries come before Universe-scope (0) entries. -/
def scopeGE (a b : RouteConfig) : Prop := b.scope ≤ a.scope

instance : DecidableRel scopeGE := fun a b => Nat.decLe b.scope a.scope

instance : IsTotal RouteConfig scopeGE := ⟨fun a b => Nat.le_total b.scope a.scope⟩

instance : IsTrans RouteConfig scopeGE := ⟨fun _ _ _ h h' => Nat.le_trans h' h⟩

/-- The reordering `slices.SortFunc(routeConfig, (a, b) => b.Scope - a.Scope)`
performs, modelled by a sort with respect to `scopeGE` (`SortFunc` is an
unspecified unstable sort; any order among equal scopes is a faithful model). -/
def sortRoutes (routes : List RouteConfig) : List RouteConfig :=
  routes.insertionSort scopeGE

/-- `driver.applyRoutingConfig` after its prologue: sort by descending scope,
then run the per-entry loop. -/
def applyRoutingConfig (linkIndex : Nat) (k : NLRoute → KRes) (routes : List RouteConfig)
    (vrfTable : Int) : List NLRoute × List RouteErr :=
  routeLoop linkIndex k vrfTable (sortRoutes routes)

/-- The `netlink.Neigh` fields populated by `applyNeighborConfig`
(`state` is `NUD_PERMANENT = 128`). -/
structure NLNeigh where
  linkIndex : Nat
  state : Nat
  ip : List Nat
  mac : List Nat
deriving DecidableEq, Repr

/-- An error collected by `applyNeighborConfig`. -/
inductive NeighErr where
  | invalidIP (s : String)
  | invalidMAC (s : String)
  | add (n : NLNeigh)
deriving DecidableEq, Repr

/-- `driver.applyNeighborConfig` after its prologue: per entry, an invalid
destination IP or hardware address is collected and the entry skipped;
otherwise a permanent neighbor entry is attempted, with `EEXIST` treated as
success. -/
def applyNeighborConfig (linkIndex : Nat) (k : NLNeigh → KRes) :
    List NeighborConfig → List NLNeigh × List NeighErr
  | [] => ([], [])
  | nc :: rest =>
    let rem := applyNeighborConfig linkIndex k rest
    match goParseIP nc.destination with
    | none => (rem.1, NeighErr.invalidIP nc.destination :: rem.2)
    | some ip =>
      match parseMAC nc.hardwareAddr with
      | none => (rem.1, NeighErr.invalidMAC nc.hardwareAddr :: rem.2)
      | some mac =>
        let n : NLNeigh := ⟨linkIndex, 128, ip, mac⟩
        match k n with
        | KRes.fail => (n :: rem.1, NeighErr.add n :: rem.2)
        | _ => (n :: rem.1, rem.2)

/-- The `netlink.Rule` fields populated by `applyRulesConfig`. -/
structure NLRule where
  priority : Int
  table : Int
  src : Option CIDR
  dst : Option CIDR
deriving DecidableEq, Repr

/-- An error collected by `applyRulesConfig`. -/
inductive RuleErr where
  | parse (s : String)
  | add (r : NLRule)
deriving DecidableEq, Repr

/-- An optional CIDR match: absent when the field is empty, a parse failure
otherwise being an error. -/
def optCIDR (s : String) : Option (Option CIDR) :=
  if s = "" then some none else (parseCIDR s).map some

/-- `driver.applyRulesConfig` after its prologue: per entry, source then
destination are parsed when non-empty (a failure is collected and the entry
skipped); otherwise the rule is attempted, with `EEXIST` treated as
success. -/
def applyRulesConfig (k : NLRule → KRes) : List RuleConfig → List NLRule × List RuleErr
  | [] => ([], [])
  | rcg :: rest =>
    let rem := applyRulesConfig k rest
    match optCIDR rcg.source with
    | none => (rem.1, RuleErr.parse rcg.source :: rem.2)
    | some srcOpt =>
      match optCIDR rcg.destination with
      | none => (rem.1, RuleErr.parse rcg.destination :: rem.2)
      | some dstOpt =>
        let r : NLRule := ⟨rcg.priority, rcg.table, srcOpt, dstOpt⟩
        match k r with
        | KRes.fail => (r :: rem.1, RuleErr.add r :: rem.2)
        | _ => (r :: rem.1, rem.2)

/-! ### Attribute resolver helper (pkg/inventory)

Modelled from the spec: `getLastSegmentAndTruncate` (spec §4.3 `shortName`)
is exercised by `Test_getLastSegmentAndTruncate` but its defining file is not
among the shown sources.  Per the spec it returns the substring after the
final `/` (empty if the input ends in `/`), truncated to `maxLength` by raw
byte length; strings are therefore modelled as their byte sequences. -/
def getLastSegmentAndTruncate (s : List Nat) (maxLength : Nat) : List Nat :=
  ((s.reverse.takeWhile (fun b => b ≠ 47)).reverse).take maxLength

/-! ### Helper lemmas -/

/-- Whether an attribute list carries key `k`. -/
def keyMem (l : List (AttrKey × DeviceAttribute)) (k : AttrKey) : Bool :=
  l.any (fun p => p.1 == k)

theorem splitChar_ne_nil (sep : Char) (l : List Char) : splitChar sep l ≠ [] := by
  cases l with
  | nil => simp [splitChar]
  | cons c rest =>
    simp only [splitChar]
    split
    · simp
    · match h : splitChar sep rest with
      | [] => simp
      | seg :: segs => simp

theorem splitN3_length (l : List Char) :
    (splitN3 l).length = min (splitChar '/' l).length 3 := by
  unfold splitN3
  simp only []
  split <;> rename_i h <;> simp [List.length_take] <;> omega

/-! ### Claim C1 -/

/-- C1: for every GCE instance and device identifier with a non-empty MAC
that matches an interface record, if the matched record's network string
does not parse as `projects/<digits>/networks/<name>`, then
`GetDeviceAttributes` returns no data at all (the nil map), not a partial
attribute set. -/
theorem getDeviceAttributes_none_of_network_unparsable
    (g : GCEInstance) (id : DeviceIdentifiers) (itf : GceNetworkInterface)
    (hmac : id.mac ≠ "")
    (hfind : g.interfaces.find? (fun i => decide (i.mac = id.mac)) = some itf)
    (hparse : parseGCENetwork itf.network = none) :
    GetDeviceAttributes g id = none := by
  unfold GetDeviceAttributes
  simp only [hfind, if_neg hmac]
  split <;> simp_all

/-- C1 witness: the spec's concrete scenario, a matched MAC whose network
string is `invalid-gce-network-string`, yields no data. -/
theorem getDeviceAttributes_none_of_network_unparsable_witness :
    GetDeviceAttributes
      ⟨"inst", "n2-standard-4", "",
        [⟨"10.0.0.2", "00:11:22:33:44:55", 1460, "invalid-gce-network-string", []⟩], ""⟩
      ⟨"00:11:22:33:44:55", "", ""⟩ = none :=
  getDeviceAttributes_none_of_network_unparsable _ _
    ⟨"10.0.0.2", "00:11:22:33:44:55", 1460, "invalid-gce-network-string", []⟩
    (by decide) (by decide) (by decide)

/-! ### Claim C8 -/

/-- C8: a MAC matching the record with network
`projects/12345/networks/test-network` yields the network name
`test-network` and the project number `12345` next to the machine type; an
unmatched or empty MAC yields exactly the node-level attributes, without an
error; and the node-level attributes always carry the machine type and keys
drawn only from machine type and topology. -/
theorem getDeviceAttributes_match_and_node_level :
    (∀ t p n, GetDeviceAttributes
        ⟨"inst", t, "",
          [⟨"10.0.0.2", "00:11:22:33:44:55", 1460, "projects/12345/networks/test-network", []⟩],
          ""⟩
        ⟨"00:11:22:33:44:55", p, n⟩ =
      some [(AttrKey.machineType, DeviceAttribute.str t),
            (AttrKey.networkName, DeviceAttribute.str "test-network"),
            (AttrKey.networkProjectNumber, DeviceAttribute.int 12345)])
    ∧ (∀ (g : GCEInstance) (id : DeviceIdentifiers), id.mac ≠ "" →
        (∀ itf ∈ g.interfaces, itf.mac ≠ id.mac) →
        GetDeviceAttributes g id = some (nodeLevelAttrs g))
    ∧ (∀ (g : GCEInstance) (id : DeviceIdentifiers), id.mac = "" →
        GetDeviceAttributes g id = some (nodeLevelAttrs g))
    ∧ (∀ g : GCEInstance,
        (AttrKey.machineType, DeviceAttribute.str g.type) ∈ nodeLevelAttrs g ∧
        ∀ p ∈ nodeLevelAttrs g,
          p.1 = AttrKey.machineType ∨ p.1 = AttrKey.block ∨
          p.1 = AttrKey.subBlock ∨ p.1 = AttrKey.host) := by
  refine ⟨fun t p n => rfl, ?_, ?_, ?_⟩
  · intro g id hmac hnone
    have hfind : g.interfaces.find? (fun i => decide (i.mac = id.mac)) = none := by
      rw [List.find?_eq_none]
      intro x hx
      simpa using hnone x hx
    unfold GetDeviceAttributes
    simp [hmac, hfind]
  · intro g id hmac
    unfold GetDeviceAttributes
    simp [hmac]
  · intro g
    unfold nodeLevelAttrs
    split
    · simp
    · split
      · refine ⟨by simp, ?_⟩
        intro p hp
        simp only [List.mem_append, List.mem_cons, List.mem_singleton] at hp
        rcases hp with (h | h) | h | h | h <;> simp_all
      · simp

/-- C8 witness: the theorem applied at the spec's concrete inputs — a
matched MAC, an unmatched MAC, and an empty MAC. -/
theorem getDeviceAttributes_match_and_node_level_witness :
    GetDeviceAttributes
        ⟨"inst", "a3-highgpu-8g", "",
          [⟨"10.0.0.2", "00:11:22:33:44:55", 1460, "projects/12345/networks/test-network", []⟩],
          ""⟩
        ⟨"00:11:22:33:44:55", "", ""⟩ =
      some [(AttrKey.machineType, DeviceAttribute.str "a3-highgpu-8g"),
            (AttrKey.networkName, DeviceAttribute.str "test-network"),
            (AttrKey.networkProjectNumber, DeviceAttribute.int 12345)]
    ∧ GetDeviceAttributes
        ⟨"inst", "a3-highgpu-8g", "",
          [⟨"10.0.0.2", "00:11:22:33:44:55", 1460, "projects/12345/networks/test-network", []⟩],
          ""⟩
        ⟨"00:11:22:33:44:FF", "", ""⟩ =
      some [(AttrKey.machineType, DeviceAttribute.str "a3-highgpu-8g")] := by
  constructor
  · exact getDeviceAttributes_match_and_node_level.1 "a3-highgpu-8g" "" ""
  · have h := getDeviceAttributes_match_and_node_level.2.1
      ⟨"inst", "a3-highgpu-8g", "",
        [⟨"10.0.0.2", "00:11:22:33:44:55", 1460, "projects/12345/networks/test-network", []⟩],
        ""⟩
      ⟨"00:11:22:33:44:FF", "", ""⟩ (by decide) (by decide)
    rw [h]
    rfl

/-! ### Claim C2 -/

/-- C2 counterexample: the claim says a topology whose natural `/`-split has
MORE than three segments emits none of the three topology attributes; but
for topology `/a/b/c/d` — four natural segments after trimming the leading
slash — the code (which uses `SplitN` with limit 3) emits all three, with
the host attribute keeping the remaining slash (`c/d`). -/
theorem topology_four_segments_still_emitted :
    (splitChar '/' (trimLeadingSlash ("/a/b/c/d".data))).length = 4
    ∧ GetDeviceAttributes ⟨"inst", "t3", "", [], "/a/b/c/d"⟩ ⟨"", "", ""⟩ =
        some [(AttrKey.machineType, DeviceAttribute.str "t3"),
              (AttrKey.block, DeviceAttribute.str "a"),
              (AttrKey.subBlock, DeviceAttribute.str "b"),
              (AttrKey.host, DeviceAttribute.str "c/d")] := by
  constructor
  · decide
  · rfl

/-- C2 amended: for a non-empty topology string the three topology
attributes are emitted exactly when the string, after trimming one leading
`/`, has AT LEAST three natural `/`-separated segments (`SplitN` with limit
3 then yields exactly three parts, the third keeping any remaining
slashes); with fewer than three segments none of the three is emitted; and
in no case does the segment count make the call fail. -/
theorem topology_attrs_iff_three_or_more_segments
    (g : GCEInstance) (h : g.topology ≠ "") :
    GetDeviceAttributes g ⟨"", "", ""⟩ = some (nodeLevelAttrs g)
    ∧ (3 ≤ (splitChar '/' (trimLeadingSlash g.topology.data)).length →
        keyMem (nodeLevelAttrs g) AttrKey.block = true
        ∧ keyMem (nodeLevelAttrs g) AttrKey.subBlock = true
        ∧ keyMem (nodeLevelAttrs g) AttrKey.host = true)
    ∧ ((splitChar '/' (trimLeadingSlash g.topology.data)).length < 3 →
        keyMem (nodeLevelAttrs g) AttrKey.block = false
        ∧ keyMem (nodeLevelAttrs g) AttrKey.subBlock = false
        ∧ keyMem (nodeLevelAttrs g) AttrKey.host = false) := by
  have hlen := splitN3_length (trimLeadingSlash g.topology.data)
  refine ⟨rfl, ?_, ?_⟩
  · intro h3
    unfold nodeLevelAttrs
    rw [if_neg h]
    split
    · simp [keyMem]
    · rename_i hne
      exfalso
      have : (splitN3 (trimLeadingSlash g.topology.data)).length = 3 := by omega
      match hm : splitN3 (trimLeadingSlash g.topology.data), this with
      | [b, sb, hh], _ => exact hne b sb hh hm
  · intro h3
    unfold nodeLevelAttrs
    rw [if_neg h]
    split
    · rename_i b sb hh hm
      exfalso
      have : (splitN3 (trimLeadingSlash g.topology.data)).length = 3 := by rw [hm]; rfl
      omega
    · simp [keyMem]

/-- C2 amended, witness: a two-segment topology emits no topology
attributes; a three-segment topology emits all three. -/
theorem topology_attrs_iff_three_or_more_segments_witness :
    keyMem (nodeLevelAttrs ⟨"inst", "t3", "", [], "/a/b"⟩) AttrKey.block = false
    ∧ keyMem (nodeLevelAttrs ⟨"inst", "t3", "", [], "/a/b/c"⟩) AttrKey.host = true := by
  constructor
  · exact ((topology_attrs_iff_three_or_more_segments
      ⟨"inst", "t3", "", [], "/a/b"⟩ (by decide)).2.2 (by decide)).1
  · exact ((topology_attrs_iff_three_or_more_segments
      ⟨"inst", "t3", "", [], "/a/b/c"⟩ (by decide)).2.1 (by decide)).2.2

/-! ### Claim C7 -/

/-- C7: for every offset value of the package constant, `VRFConfig.Default`
fills an absent table of a non-empty name with
`fnv1a32(name) % 1000 + offset`; the derived table depends only on the
name, so independent invocations agree; and a config whose table is already
set is left unchanged. -/
theorem vrfDefault_table_derivation (offset : Nat) (c : VRFConfig) :
    (c.table = none → c.name ≠ "" →
      VRFConfig.Default offset c =
        { c with table := some ((fnv1a32 (utf8Bytes c.name) % 1000 + offset : Nat) : Int) })
    ∧ (∀ c' : VRFConfig, c.name = c'.name → c.table = none → c'.table = none →
        (VRFConfig.Default offset c).table = (VRFConfig.Default offset c').table)
    ∧ (∀ t, c.table = some t → VRFConfig.Default offset c = c) := by
  refine ⟨?_, ?_, ?_⟩
  · intro ht hn
    unfold VRFConfig.Default
    rw [if_pos ⟨ht, hn⟩]
  · intro c' hname ht ht'
    unfold VRFConfig.Default
    by_cases hn : c.name = ""
    · rw [if_neg (by simp [hn]), if_neg (by simp [hname ▸ hn]), ht, ht']
    · rw [if_pos ⟨ht, hn⟩, if_pos ⟨ht', hname ▸ hn⟩]
      simp [hname]
  · intro t ht
    unfold VRFConfig.Default
    rw [if_neg (by simp [ht])]

/-- C7 witness: with offset 1000 the name `red` always derives table 1596,
and an explicit table 42 survives defaulting. -/
theorem vrfDefault_table_derivation_witness :
    VRFConfig.Default 1000 ⟨"red", none⟩ = ⟨"red", some 1596⟩
    ∧ (VRFConfig.Default 1000 ⟨"red", none⟩).table =
        (VRFConfig.Default 1000 ⟨"red", none⟩).table
    ∧ VRFConfig.Default 1000 ⟨"red", some 42⟩ = ⟨"red", some 42⟩ := by
  refine ⟨?_, ?_, ?_⟩
  · have h := (vrfDefault_table_derivation 1000 ⟨"red", none⟩).1 rfl (by decide)
    rw [h]
    decide
  · exact (vrfDefault_table_derivation 1000 ⟨"red", none⟩).2.1 ⟨"red", none⟩ rfl rfl rfl
  · exact (vrfDefault_table_derivation 1000 ⟨"red", some 42⟩).2.2 42 rfl

/-! ### Claim C10 -/

/-- C10: `getLastSegmentAndTruncate` (the spec's `shortName`) returns the
byte run after the final `/` truncated to `maxLength` bytes — verified on
the spec's four concrete examples — and in general the result has at most
`maxLength` bytes, never contains a slash, and on slash-free input is just
the `maxLength`-byte truncation. -/
theorem getLastSegmentAndTruncate_spec :
    getLastSegmentAndTruncate (utf8Bytes "/path/to/segment") 20 = utf8Bytes "segment"
    ∧ getLastSegmentAndTruncate (utf8Bytes "/path/to/verylongsegmentname") 10 =
        utf8Bytes "verylongse"
    ∧ getLastSegmentAndTruncate (utf8Bytes "/path/to/segment/") 10 = utf8Bytes ""
    ∧ getLastSegmentAndTruncate (utf8Bytes "") 10 = utf8Bytes ""
    ∧ (∀ (s : List Nat) (n : Nat),
        (getLastSegmentAndTruncate s n).length ≤ n
        ∧ (47 : Nat) ∉ getLastSegmentAndTruncate s n)
    ∧ (∀ (s : List Nat) (n : Nat), (47 : Nat) ∉ s →
        getLastSegmentAndTruncate s n = s.take n) := by
  refine ⟨by decide, by decide, by decide, by decide, ?_, ?_⟩
  · intro s n
    refine ⟨?_, ?_⟩
    · unfold getLastSegmentAndTruncate
      exact List.length_take_le _ _
    · intro hmem
      unfold getLastSegmentAndTruncate at hmem
      have h1 := List.mem_of_mem_take hmem
      rw [List.mem_reverse] at h1
      have h2 := List.mem_takeWhile_imp h1
      simp at h2
  · intro s n hns
    unfold getLastSegmentAndTruncate
    rw [List.takeWhile_eq_self_iff.mpr, List.reverse_reverse]
    intro a ha
    rw [List.mem_reverse] at ha
    simp only [ne_eq, decide_eq_true_eq]
    intro hEq
    exact hns (hEq ▸ ha)

/-- C10 witness: the slash-free case applied at a concrete input. -/
theorem getLastSegmentAndTruncate_spec_witness :
    getLastSegmentAndTruncate (utf8Bytes "abc") 2 = (utf8Bytes "abc").take 2 :=
  getLastSegmentAndTruncate_spec.2.2.2.2.2 (utf8Bytes "abc") 2 (by decide)

/-! ### Engine helper lemmas -/

/-- The build step of one route entry, as an `Option`-valued map. -/
def routeAttempt (linkIndex : Nat) (vrfTable : Int) (rc : RouteConfig) : Option NLRoute :=
  (parseCIDR rc.destination).map (buildNLRoute linkIndex vrfTable rc)

/-- The error one route entry contributes under kernel oracle `k`. -/
def routeErrOf (linkIndex : Nat) (k : NLRoute → KRes) (vrfTable : Int) (rc : RouteConfig) :
    Option RouteErr :=
  match parseCIDR rc.destination with
  | none => some (RouteErr.parse rc.destination)
  | some dst =>
    if k (buildNLRoute linkIndex vrfTable rc dst) = KRes.fail then
      some (RouteErr.add (buildNLRoute linkIndex vrfTable rc dst))
    else none

theorem routeLoop_fst (linkIndex : Nat) (k : NLRoute → KRes) (vrfTable : Int)
    (l : List RouteConfig) :
    (routeLoop linkIndex k vrfTable l).1 = l.filterMap (routeAttempt linkIndex vrfTable) := by
  induction l with
  | nil => rfl
  | cons rc rest ih =>
    unfold routeLoop
    rw [List.filterMap_cons]
    cases hp : parseCIDR rc.destination with
    | none => simpa [hp, routeAttempt] using ih
    | some dst =>
      cases hk : k (buildNLRoute linkIndex vrfTable rc dst) <;>
        simp [hp, hk, routeAttempt, ih]

theorem routeLoop_snd (linkIndex : Nat) (k : NLRoute → KRes) (vrfTable : Int)
    (l : List RouteConfig) :
    (routeLoop linkIndex k vrfTable l).2 = l.filterMap (routeErrOf linkIndex k vrfTable) := by
  induction l with
  | nil => rfl
  | cons rc rest ih =>
    unfold routeLoop
    rw [List.filterMap_cons]
    cases hp : parseCIDR rc.destination with
    | none => simpa [hp, routeErrOf] using ih
    | some dst =>
      cases hk : k (buildNLRoute linkIndex vrfTable rc dst) <;>
        simp [hp, hk, routeErrOf, ih]

theorem mem_sortRoutes {rc : RouteConfig} {routes : List RouteConfig} :
    rc ∈ sortRoutes routes ↔ rc ∈ routes :=
  List.mem_insertionSort scopeGE

theorem sortRoutes_pairwise (routes : List RouteConfig) :
    List.Pairwise scopeGE (sortRoutes routes) :=
  List.sorted_insertionSort scopeGE routes

/-- The neighbor entry one config row attempts, if it validates. -/
def neighAttempt (linkIndex : Nat) (nc : NeighborConfig) : Option NLNeigh :=
  match goParseIP nc.destination with
  | none => none
  | some ip =>
    match parseMAC nc.hardwareAddr with
    | none => none
    | some mac => some ⟨linkIndex, 128, ip, mac⟩

/-- The error one neighbor row contributes under kernel oracle `k`. -/
def neighErrOf (linkIndex : Nat) (k : NLNeigh → KRes) (nc : NeighborConfig) :
    Option NeighErr :=
  match goParseIP nc.destination with
  | none => some (NeighErr.invalidIP nc.destination)
  | some ip =>
    match parseMAC nc.hardwareAddr with
    | none => some (NeighErr.invalidMAC nc.hardwareAddr)
    | some mac =>
      if k ⟨linkIndex, 128, ip, mac⟩ = KRes.fail then
        some (NeighErr.add ⟨linkIndex, 128, ip, mac⟩)
      else none

theorem applyNeighborConfig_fst (linkIndex : Nat) (k : NLNeigh → KRes)
    (l : List NeighborConfig) :
    (applyNeighborConfig linkIndex k l).1 = l.filterMap (neighAttempt linkIndex) := by
  induction l with
  | nil => rfl
  | cons nc rest ih =>
    unfold applyNeighborConfig
    rw [List.filterMap_cons]
    cases hp : goParseIP nc.destination with
    | none => simpa [hp, neighAttempt] using ih
    | some ip =>
      cases hm : parseMAC nc.hardwareAddr with
      | none => simpa [hp, hm, neighAttempt] using ih
      | some mac =>
        cases hk : k ⟨linkIndex, 128, ip, mac⟩ <;>
          simp [hp, hm, hk, neighAttempt, ih]

theorem applyNeighborConfig_snd (linkIndex : Nat) (k : NLNeigh → KRes)
    (l : List NeighborConfig) :
    (applyNeighborConfig linkIndex k l).2 = l.filterMap (neighErrOf linkIndex k) := by
  induction l with
  | nil => rfl
  | cons nc rest ih =>
    unfold applyNeighborConfig
    rw [List.filterMap_cons]
    cases hp : goParseIP nc.destination with
    | none => simpa [hp, neighErrOf] using ih
    | some ip =>
      cases hm : parseMAC nc.hardwareAddr with
      | none => simpa [hp, hm, neighErrOf] using ih
      | some mac =>
        cases hk : k ⟨linkIndex, 128, ip, mac⟩ <;>
          simp [hp, hm, hk, neighErrOf, ih]

/-- The rule one config row attempts, if its matches validate. -/
def ruleAttempt (rcg : RuleConfig) : Option NLRule :=
  match optCIDR rcg.source with
  | none => none
  | some srcOpt =>
    match optCIDR rcg.destination with
    | none => none
    | some dstOpt => some ⟨rcg.priority, rcg.table, srcOpt, dstOpt⟩

/-- The error one rule row contributes under kernel oracle `k`. -/
def ruleErrOf (k : NLRule → KRes) (rcg : RuleConfig) : Option RuleErr :=
  match optCIDR rcg.source with
  | none => some (RuleErr.parse rcg.source)
  | some srcOpt =>
    match optCIDR rcg.destination with
    | none => some (RuleErr.parse rcg.destination)
    | some dstOpt =>
      if k ⟨rcg.priority, rcg.table, srcOpt, dstOpt⟩ = KRes.fail then
        some (RuleErr.add ⟨rcg.priority, rcg.table, srcOpt, dstOpt⟩)
      else none

theorem applyRulesConfig_fst (k : NLRule → KRes) (l : List RuleConfig) :
    (applyRulesConfig k l).1 = l.filterMap ruleAttempt := by
  induction l with
  | nil => rfl
  | cons rcg rest ih =>
    unfold applyRulesConfig
    rw [List.filterMap_cons]
    cases hs : optCIDR rcg.source with
    | none => simpa [hs, ruleAttempt] using ih
    | some srcOpt =>
      cases hd : optCIDR rcg.destination with
      | none => simpa [hs, hd, ruleAttempt] using ih
      | some dstOpt =>
        cases hk : k ⟨rcg.priority, rcg.table, srcOpt, dstOpt⟩ <;>
          simp [hs, hd, hk, ruleAttempt, ih]

theorem applyRulesConfig_snd (k : NLRule → KRes) (l : List RuleConfig) :
    (applyRulesConfig k l).2 = l.filterMap (ruleErrOf k) := by
  induction l with
  | nil => rfl
  | cons rcg rest ih =>
    unfold applyRulesConfig
    rw [List.filterMap_cons]
    cases hs : optCIDR rcg.source with
    | none => simpa [hs, ruleErrOf] using ih
    | some srcOpt =>
      cases hd : optCIDR rcg.destination with
      | none => simpa [hs, hd, ruleErrOf] using ih
      | some dstOpt =>
        cases hk : k ⟨rcg.priority, rcg.table, srcOpt, dstOpt⟩ <;>
          simp [hs, hd, hk, ruleErrOf, ih]

/-! ### Claim C3 -/

/-- C3: for every kernel oracle, input route list and VRF table, the routes
`applyRoutingConfig` attempts are ordered so that no Universe-scope (0)
entry precedes a Link-scope (253) entry — every Link-scope entry is
programmed before any Universe-scope entry, whatever the input order. -/
theorem link_routes_programmed_before_universe
    (linkIndex : Nat) (k : NLRoute → KRes) (routes : List RouteConfig) (vrfTable : Int) :
    List.Pairwise (fun a b : NLRoute => ¬ (a.scope = 0 ∧ b.scope = 253))
      (applyRoutingConfig linkIndex k routes vrfTable).1 := by
  unfold applyRoutingConfig
  rw [routeLoop_fst]
  refine List.Pairwise.filterMap _ ?_ (sortRoutes_pairwise routes)
  intro a a' hge b hb b' hb'
  unfold routeAttempt at hb hb'
  rw [Option.mem_def, Option.map_eq_some'] at hb hb'
  obtain ⟨dst, hp, hbuild⟩ := hb
  obtain ⟨dst', hp', hbuild'⟩ := hb'
  rintro ⟨h0, h253⟩
  rw [← hbuild] at h0
  rw [← hbuild'] at h253
  simp only [buildNLRoute] at h0 h253
  have : a'.scope ≤ a.scope := hge
  omega

/-! ### Claim C4 -/

/-- C4: when a VRF is active (`0 < vrfTable`) every attempted route carries
the VRF's table, overriding the entry's own table; with no VRF
(`vrfTable = 0`) every attempted route keeps the table of the entry it was
built from. -/
theorem route_table_vrf_override
    (linkIndex : Nat) (k : NLRoute → KRes) (routes : List RouteConfig) (vrfTable : Int) :
    (0 < vrfTable →
      ∀ r ∈ (applyRoutingConfig linkIndex k routes vrfTable).1, r.table = vrfTable)
    ∧ (vrfTable = 0 →
      ∀ r ∈ (applyRoutingConfig linkIndex k routes vrfTable).1,
        ∃ rc ∈ routes, r.table = rc.table ∧ r.scope = rc.scope
          ∧ parseCIDR rc.destination = some r.dst) := by
  unfold applyRoutingConfig
  rw [routeLoop_fst]
  constructor
  · intro hv r hr
    rw [List.mem_filterMap] at hr
    obtain ⟨rc, _, hf⟩ := hr
    unfold routeAttempt at hf
    rw [Option.map_eq_some'] at hf
    obtain ⟨dst, hp, hbuild⟩ := hf
    rw [← hbuild]
    simp [buildNLRoute, hv]
  · intro hv r hr
    rw [List.mem_filterMap] at hr
    obtain ⟨rc, hmem, hf⟩ := hr
    unfold routeAttempt at hf
    rw [Option.map_eq_some'] at hf
    obtain ⟨dst, hp, hbuild⟩ := hf
    refine ⟨rc, mem_sortRoutes.mp hmem, ?_, ?_, ?_⟩
    · rw [← hbuild]
      simp [buildNLRoute, hv]
    · rw [← hbuild]
      rfl
    · rw [← hbuild]
      exact hp

/-- C4 witness: with VRF table 100 a route configured for table 5 is
attempted with table 100; with no VRF it keeps table 5. -/
theorem route_table_vrf_override_witness :
    (buildNLRoute 1 100 ⟨"10.0.0.0/24", "", "", 0, 5⟩ ⟨[10, 0, 0, 0], 24⟩).table = 100
    ∧ ∃ rc ∈ [(⟨"10.0.0.0/24", "", "", 0, 5⟩ : RouteConfig)],
        (buildNLRoute 1 0 ⟨"10.0.0.0/24", "", "", 0, 5⟩ ⟨[10, 0, 0, 0], 24⟩).table = rc.table := by
  constructor
  · exact (route_table_vrf_override 1 (fun _ => KRes.ok)
      [⟨"10.0.0.0/24", "", "", 0, 5⟩] 100).1 (by decide)
      (buildNLRoute 1 100 ⟨"10.0.0.0/24", "", "", 0, 5⟩ ⟨[10, 0, 0, 0], 24⟩) (by decide)
  · obtain ⟨rc, hmem, ht, -, -⟩ := (route_table_vrf_override 1 (fun _ => KRes.ok)
      [⟨"10.0.0.0/24", "", "", 0, 5⟩] 0).2 rfl
      (buildNLRoute 1 0 ⟨"10.0.0.0/24", "", "", 0, 5⟩ ⟨[10, 0, 0, 0], 24⟩) (by decide)
    exact ⟨rc, hmem, ht⟩

/-! ### Claim C5 -/

/-- C5: in route, neighbor and rule application, an `EEXIST` kernel answer
is treated exactly like success: (i) two oracles agreeing on which requests
fail (regardless of `ok` vs `eexist` answers) produce identical results;
(ii) when no request fails — e.g. every entry already exists — the
collected errors are exactly the per-entry parse errors, so re-applying
present entries contributes no error; (iii) the attempted entries never
depend on the kernel's answers, so parse errors and kernel rejections do
not stop the remaining entries. -/
theorem eexist_is_success_and_errors_collected
    (linkIndex : Nat) (routes : List RouteConfig) (vrfTable : Int)
    (neighs : List NeighborConfig) (rules : List RuleConfig) :
    (∀ k k' : NLRoute → KRes, (∀ r, k r = KRes.fail ↔ k' r = KRes.fail) →
      applyRoutingConfig linkIndex k routes vrfTable =
        applyRoutingConfig linkIndex k' routes vrfTable)
    ∧ (∀ k k' : NLNeigh → KRes, (∀ n, k n = KRes.fail ↔ k' n = KRes.fail) →
      applyNeighborConfig linkIndex k neighs = applyNeighborConfig linkIndex k' neighs)
    ∧ (∀ k k' : NLRule → KRes, (∀ r, k r = KRes.fail ↔ k' r = KRes.fail) →
      applyRulesConfig k rules = applyRulesConfig k' rules)
    ∧ (∀ k : NLRoute → KRes, (∀ r, k r ≠ KRes.fail) →
      (applyRoutingConfig linkIndex k routes vrfTable).2 =
        (sortRoutes routes).filterMap (fun rc =>
          if parseCIDR rc.destination = none then some (RouteErr.parse rc.destination)
          else none))
    ∧ (∀ k : NLNeigh → KRes, (∀ n, k n ≠ KRes.fail) →
      (applyNeighborConfig linkIndex k neighs).2 =
        neighs.filterMap (fun nc =>
          if goParseIP nc.destination = none then some (NeighErr.invalidIP nc.destination)
          else if parseMAC nc.hardwareAddr = none then
            some (NeighErr.invalidMAC nc.hardwareAddr)
          else none))
    ∧ (∀ k : NLRule → KRes, (∀ r, k r ≠ KRes.fail) →
      (applyRulesConfig k rules).2 =
        rules.filterMap (fun rcg =>
          if optCIDR rcg.source = none then some (RuleErr.parse rcg.source)
          else if optCIDR rcg.destination = none then some (RuleErr.parse rcg.destination)
          else none))
    ∧ (∀ k k' : NLRoute → KRes,
      (applyRoutingConfig linkIndex k routes vrfTable).1 =
        (applyRoutingConfig linkIndex k' routes vrfTable).1)
    ∧ (∀ k k' : NLNeigh → KRes,
      (applyNeighborConfig linkIndex k neighs).1 = (applyNeighborConfig linkIndex k' neighs).1)
    ∧ (∀ k k' : NLRule → KRes,
      (applyRulesConfig k rules).1 = (applyRulesConfig k' rules).1) := by
  refine ⟨?_, ?_, ?_, ?_, ?_, ?_, ?_, ?_, ?_⟩
  · intro k k' h
    unfold applyRoutingConfig
    rw [Prod.ext_iff, routeLoop_fst, routeLoop_fst, routeLoop_snd, routeLoop_snd]
    refine ⟨rfl, List.filterMap_congr ?_⟩
    intro rc _
    unfold routeErrOf
    cases hp : parseCIDR rc.destination with
    | none => rfl
    | some dst => exact if_congr (h _) rfl rfl
  · intro k k' h
    rw [Prod.ext_iff, applyNeighborConfig_fst, applyNeighborConfig_fst,
      applyNeighborConfig_snd, applyNeighborConfig_snd]
    refine ⟨rfl, List.filterMap_congr ?_⟩
    intro nc _
    unfold neighErrOf
    cases hp : goParseIP nc.destination with
    | none => rfl
    | some ip =>
      cases hm : parseMAC nc.hardwareAddr with
      | none => rfl
      | some mac => exact if_congr (h _) rfl rfl
  · intro k k' h
    rw [Prod.ext_iff, applyRulesConfig_fst, applyRulesConfig_fst,
      applyRulesConfig_snd, applyRulesConfig_snd]
    refine ⟨rfl, List.filterMap_congr ?_⟩
    intro rcg _
    unfold ruleErrOf
    cases hs : optCIDR rcg.source with
    | none => rfl
    | some srcOpt =>
      cases hd : optCIDR rcg.destination with
      | none => rfl
      | some dstOpt => exact if_congr (h _) rfl rfl
  · intro k h
    unfold applyRoutingConfig
    rw [routeLoop_snd]
    refine List.filterMap_congr ?_
    intro rc _
    unfold routeErrOf
    cases hp : parseCIDR rc.destination with
    | none => simp [hp]
    | some dst => simp [hp, h _]
  · intro k h
    rw [applyNeighborConfig_snd]
    refine List.filterMap_congr ?_
    intro nc _
    unfold neighErrOf
    cases hp : goParseIP nc.destination with
    | none => simp [hp]
    | some ip =>
      cases hm : parseMAC nc.hardwareAddr with
      | none => simp [hp, hm]
      | some mac => simp [hp, hm, h _]
  · intro k h
    rw [applyRulesConfig_snd]
    refine List.filterMap_congr ?_
    intro rcg _
    unfold ruleErrOf
    cases hs : optCIDR rcg.source with
    | none => simp [hs]
    | some srcOpt =>
      cases hd : optCIDR rcg.destination with
      | none => simp [hs, hd]
      | some dstOpt => simp [hs, hd, h _]
  · intro k k'
    unfold applyRoutingConfig
    rw [routeLoop_fst, routeLoop_fst]
  · intro k k'
    rw [applyNeighborConfig_fst, applyNeighborConfig_fst]
  · intro k k'
    rw [applyRulesConfig_fst, applyRulesConfig_fst]

/-- C5 witness: on a mixed list (one well-formed route, one with an
unparsable destination), an all-`EEXIST` kernel produces the same outcome
as an all-success kernel, and the only collected error is the parse error,
while the well-formed entry is still attempted. -/
theorem eexist_is_success_and_errors_collected_witness :
    applyRoutingConfig 1 (fun _ => KRes.eexist)
        [⟨"10.0.5.1", "10.0.5.1", "", 0, 0⟩, ⟨"10.0.5.1/32", "", "", 253, 0⟩] 0 =
      applyRoutingConfig 1 (fun _ => KRes.ok)
        [⟨"10.0.5.1", "10.0.5.1", "", 0, 0⟩, ⟨"10.0.5.1/32", "", "", 253, 0⟩] 0
    ∧ (applyRoutingConfig 1 (fun _ => KRes.eexist)
        [⟨"10.0.5.1", "10.0.5.1", "", 0, 0⟩, ⟨"10.0.5.1/32", "", "", 253, 0⟩] 0).2 =
      [RouteErr.parse "10.0.5.1"]
    ∧ (applyNeighborConfig 1 (fun _ => KRes.eexist)
        [(⟨"10.0.5.1", "00:11:22:33:44:55"⟩ : NeighborConfig)]).2 = []
    ∧ (applyRulesConfig (fun _ => KRes.eexist)
        [(⟨100, 100, "", ""⟩ : RuleConfig)]).2 = [] := by
  have h := eexist_is_success_and_errors_collected 1
    [⟨"10.0.5.1", "10.0.5.1", "", 0, 0⟩, ⟨"10.0.5.1/32", "", "", 253, 0⟩] 0
    [(⟨"10.0.5.1", "00:11:22:33:44:55"⟩ : NeighborConfig)]
    [(⟨100, 100, "", ""⟩ : RuleConfig)]
  refine ⟨h.1 _ _ (fun r => by decide), ?_, ?_, ?_⟩
  · rw [h.2.2.2.1 _ (fun r => by decide)]
    decide
  · rw [h.2.2.2.2.1 _ (fun n => by decide)]
    decide
  · rw [h.2.2.2.2.2.1 _ (fun r => by decide)]
    decide

/-! ### Claim C9 -/

theorem splitFirst_eq_none_of_not_mem {sep : Char} {l : List Char} (h : sep ∉ l) :
    splitFirst sep l = none := by
  induction l with
  | nil => rfl
  | cons c rest ih =>
    rw [List.mem_cons, not_or] at h
    unfold splitFirst
    rw [if_neg (fun hc => h.1 hc.symm), ih h.2]
    rfl

theorem mem_ite_singleton {α : Type} {e x : α} {c : Prop} [Decidable c] :
    e ∈ (if c then [x] else []) ↔ c ∧ e = x := by
  split <;> simp_all

/-- C9: a route destination that is a bare IP address (no `/`, accepted by
`net.ParseIP`) passes `validateRoutes` without a destination error, yet
`applyRoutingConfig` records a parse error for it and never attempts it —
only CIDR-formatted destinations are ever programmed. -/
theorem bare_ip_destination_valid_but_never_programmed
    (linkIndex : Nat) (k : NLRoute → KRes) (routes : List RouteConfig) (vrfTable : Int)
    (rc : RouteConfig)
    (hnoslash : '/' ∉ rc.destination.data)
    (hip : (goParseIP rc.destination).isSome = true) :
    parseCIDR rc.destination = none
    ∧ RouteValErr.destEmpty 0 ∉ validateRoutes 0 [rc]
    ∧ RouteValErr.destInvalid 0 ∉ validateRoutes 0 [rc]
    ∧ (rc ∈ routes →
        RouteErr.parse rc.destination ∈ (applyRoutingConfig linkIndex k routes vrfTable).2)
    ∧ (∀ r ∈ (applyRoutingConfig linkIndex k routes vrfTable).1,
        ∃ rc' ∈ routes, parseCIDR rc'.destination = some r.dst) := by
  have hparse : parseCIDR rc.destination = none := by
    unfold parseCIDR
    rw [splitFirst_eq_none_of_not_mem hnoslash]
  have hipn : ¬ goParseIP rc.destination = none := by
    intro h0
    rw [h0] at hip
    simp at hip
  have hd : rc.destination ≠ "" := by
    intro h0
    rw [h0] at hip
    simp [goParseIP] at hip
  have hval : ∀ e ∈ validateRoutes 0 [rc],
      e ≠ RouteValErr.destEmpty 0 ∧ e ≠ RouteValErr.destInvalid 0 := by
    intro e he
    unfold validateRoutes validateRoutes validateRoute at he
    rw [if_neg hd,
      if_neg (show ¬ (parseCIDR rc.destination = none ∧ goParseIP rc.destination = none)
        from fun hc => hipn hc.2)] at he
    simp only [List.append_nil, List.nil_append, List.mem_append] at he
    rcases he with ((h | h) | h) | h <;>
      · revert h
        split <;> (try split) <;> simp <;> (rintro rfl; exact ⟨by simp, by simp⟩)
  refine ⟨hparse, ?_, ?_, ?_, ?_⟩
  · intro hmem
    exact (hval _ hmem).1 rfl
  · intro hmem
    exact (hval _ hmem).2 rfl
  · intro hmem
    unfold applyRoutingConfig
    rw [routeLoop_snd, List.mem_filterMap]
    refine ⟨rc, mem_sortRoutes.mpr hmem, ?_⟩
    unfold routeErrOf
    rw [hparse]
  · intro r hr
    unfold applyRoutingConfig at hr
    rw [routeLoop_fst, List.mem_filterMap] at hr
    obtain ⟨rc', hmem, hf⟩ := hr
    unfold routeAttempt at hf
    rw [Option.map_eq_some'] at hf
    obtain ⟨dst, hp, hbuild⟩ := hf
    exact ⟨rc', mem_sortRoutes.mp hmem, by rw [← hbuild]; exact hp⟩

/-- C9 witness: destination `10.0.5.1` — the spec's example of a bare IP —
is rejected by the engine's CIDR parse and collected as an error, while
validation reports no destination error for it. -/
theorem bare_ip_destination_valid_but_never_programmed_witness :
    parseCIDR "10.0.5.1" = none
    ∧ RouteValErr.destInvalid 0 ∉ validateRoutes 0 [⟨"10.0.5.1", "10.0.5.254", "", 0, 0⟩]
    ∧ RouteErr.parse "10.0.5.1" ∈
        (applyRoutingConfig 1 (fun _ => KRes.ok)
          [(⟨"10.0.5.1", "10.0.5.254", "", 0, 0⟩ : RouteConfig)] 0).2 := by
  have h := bare_ip_destination_valid_but_never_programmed 1 (fun _ => KRes.ok)
    [(⟨"10.0.5.1", "10.0.5.254", "", 0, 0⟩ : RouteConfig)] 0
    ⟨"10.0.5.1", "10.0.5.254", "", 0, 0⟩ (by decide) (by decide)
  exact ⟨h.1, h.2.2.1, h.2.2.2.1 (by decide)⟩

end DraNet

